import Mathlib

/-!
Shallow embedding of the feedback-bot storage layer, employee directory and
conversation handlers from `src/bot.py`, together with theorems checking the
specification's claims against it.

Python string primitives (`str.strip`, `str.lower`, `" ".join`, substring
containment via `in`) are modelled as executable functions on `List Char`
so that every definition evaluates by kernel reduction.
-/

namespace Bot

/-! ### String primitives modelling Python's `str` operations -/

/-- Model of Python `str.lower()` (character-wise lowercasing). -/
def pyLower (s : String) : String := ⟨s.data.map Char.toLower⟩

/-- Model of Python `str.strip()`: drop whitespace from both ends. -/
def pyStrip (s : String) : String :=
  ⟨((s.data.dropWhile Char.isWhitespace).reverse.dropWhile Char.isWhitespace).reverse⟩

/-- Model of Python `" ".join(args)`. -/
def joinArgs (args : List String) : String := String.intercalate " " args

/-- Does `hay` start with `needle`? (helper for substring containment). -/
def startsWithChars : List Char → List Char → Bool
  | [], _ => true
  | _ :: _, [] => false
  | a :: as, b :: bs => a == b && startsWithChars as bs

/-- Model of Python `needle in hay` for strings: contiguous containment. -/
def hasSeg : List Char → List Char → Bool
  | needle, [] => startsWithChars needle []
  | needle, c :: t => startsWithChars needle (c :: t) || hasSeg needle t

/-- Specification-level statement that `needle` occurs contiguously in `hay`. -/
def SegIn (needle hay : List Char) : Prop := ∃ p s, hay = p ++ needle ++ s

/-- Lexicographic-by-code-point order on strings, as Python compares `str`. -/
def strLtB : List Char → List Char → Bool
  | [], [] => false
  | [], _ :: _ => true
  | _ :: _, [] => false
  | a :: as, b :: bs => a.toNat < b.toNat || (a == b && strLtB as bs)

def strLeB (a b : String) : Bool := !(strLtB b.data a.data)

/-! ### Feedback storage data model (`FeedbackEntry`, the JSON document) -/

/-- Mirror of the `FeedbackEntry` dataclass (`src/bot.py` lines 39-58). -/
structure FeedbackEntry where
  user_id : Int
  username : Option String
  full_name : Option String
  text : String
  timestamp : String
deriving DecidableEq

/-- The `stats` object of the persisted JSON document: `total_messages` and
`user_message_counts` (an insertion-ordered mapping, as a Python dict). -/
structure Stats where
  total : Nat
  userCounts : List (String × Nat)
deriving DecidableEq

/-- The persisted feedback document: `{"feedback": [...], "stats": {...}}`. -/
structure Doc where
  feedback : List FeedbackEntry
  stats : Stats
deriving DecidableEq

/-- The empty-document shape written by `_ensure_file` and `clear`. -/
def emptyDoc : Doc := { feedback := [], stats := { total := 0, userCounts := [] } }

/-- Model of `counts[k] = counts.get(k, 0) + 1` on a Python dict: an existing
key keeps its position, a new key is appended at the end. -/
def bump : List (String × Nat) → String → List (String × Nat)
  | [], k => [(k, 1)]
  | (k2, v) :: t, k => if k2 = k then (k2, v + 1) :: t else (k2, v) :: bump t k

/-- Sum of the values of a counts mapping (`sum(d.values())`). -/
def sumVals (l : List (String × Nat)) : Nat := (l.map Prod.snd).sum

/-- The read-modify-write body of `FeedbackStorage.add_feedback`
(`src/bot.py` lines 123-130) applied to a snapshot of the document. -/
def addCompute (d : Doc) (e : FeedbackEntry) : Doc :=
  { feedback := d.feedback ++ [e]
  , stats :=
    { total := d.stats.total + 1
    , userCounts := bump d.stats.userCounts (toString e.user_id) } }

/-- Stable descending insertion by count (ties keep the earlier element
first), modelling `sorted(items, key=lambda item: item[1], reverse=True)`. -/
def insCountDesc (x : String × Nat) : List (String × Nat) → List (String × Nat)
  | [] => [x]
  | y :: ys => if y.2 ≤ x.2 then x :: y :: ys else y :: insCountDesc x ys

def sortCountDesc : List (String × Nat) → List (String × Nat)
  | [] => []
  | x :: xs => insCountDesc x (sortCountDesc xs)

/-- Mirror of `FeedbackStorage.get_stats` (`src/bot.py` lines 132-138). -/
def getStats (d : Doc) : Nat × List (String × Nat) :=
  (d.stats.total, sortCountDesc d.stats.userCounts)

/-- CSV field serialization with the `csv` module's minimal quoting: quote a
field containing a delimiter, quote char or line break, doubling quotes. -/
def dq : List Char → List Char
  | [] => []
  | c :: t => if c == '"' then '"' :: '"' :: dq t else c :: dq t

def csvField (s : String) : String :=
  if s.data.any (fun c => c == ',' || c == '"' || c == '\n' || c == '\r') then
    ⟨'"' :: dq s.data ++ ['"']⟩
  else s

def optStr : Option String → String
  | none => ""
  | some s => s

/-- One CSV data row for a feedback entry, in the writer's field order. -/
def csvRow (e : FeedbackEntry) : String :=
  String.intercalate ","
    [ csvField e.timestamp, csvField (toString e.user_id)
    , csvField (optStr e.username), csvField (optStr e.full_name)
    , csvField e.text ]

def csvHeader : String := "timestamp,user_id,username,full_name,text"

/-- Mirror of `FeedbackStorage.export_csv` (`src/bot.py` lines 140-157),
returning the CSV lines or the `ValueError` message. -/
def exportCsv (d : Doc) : Except String (List String) :=
  match d.feedback with
  | [] => Except.error "No feedback to export."
  | _ :: _ => Except.ok (csvHeader :: d.feedback.map csvRow)

/-- Completed sequential store operations (`add_feedback` / `clear`). -/
inductive Op where
  | add (e : FeedbackEntry)
  | clear
deriving DecidableEq

def applyOp (d : Doc) : Op → Doc
  | Op.add e => addCompute d e
  | Op.clear => emptyDoc

/-- The document after a sequence of completed operations from initialization. -/
def runOps (ops : List Op) : Doc := ops.foldl applyOp emptyDoc

/-! ### Lemmas about the counts mapping and the stable sort -/

theorem sumVals_bump (l : List (String × Nat)) (k : String) :
    sumVals (bump l k) = sumVals l + 1 := by
  induction l with
  | nil => simp [bump, sumVals]
  | cons p t ih =>
    obtain ⟨k2, v⟩ := p
    by_cases h : k2 = k
    · simp [bump, h, sumVals, Nat.add_assoc, Nat.add_comm 1]
    · simp only [bump, if_neg h, sumVals, List.map_cons, List.sum_cons] at *
      omega

theorem perm_insCountDesc (x : String × Nat) (l : List (String × Nat)) :
    List.Perm (insCountDesc x l) (x :: l) := by
  induction l with
  | nil => simp [insCountDesc]
  | cons y ys ih =>
    by_cases h : y.2 ≤ x.2
    · simp [insCountDesc, h]
    · simp only [insCountDesc, if_neg h]
      exact (List.Perm.cons y ih).trans (List.Perm.swap x y ys)

theorem mem_insCountDesc {z x : String × Nat} {l : List (String × Nat)}
    (h : z ∈ insCountDesc x l) : z = x ∨ z ∈ l := by
  have := (perm_insCountDesc x l).mem_iff.mp h
  simpa using this

theorem pairwise_insCountDesc (x : String × Nat) (l : List (String × Nat))
    (h : l.Pairwise (fun a b => b.2 ≤ a.2)) :
    (insCountDesc x l).Pairwise (fun a b => b.2 ≤ a.2) := by
  induction l with
  | nil => simp [insCountDesc]
  | cons y ys ih =>
    rw [List.pairwise_cons] at h
    by_cases hle : y.2 ≤ x.2
    · simp only [insCountDesc, if_pos hle]
      refine List.Pairwise.cons ?_ (List.Pairwise.cons h.1 h.2)
      intro z hz
      rcases List.mem_cons.mp hz with rfl | hz
      · exact hle
      · exact le_trans (h.1 z hz) hle
    · simp only [insCountDesc, if_neg hle]
      refine List.Pairwise.cons ?_ (ih h.2)
      intro z hz
      rcases mem_insCountDesc hz with hz | hz
      · subst hz; omega
      · exact h.1 z hz

theorem filter_insCountDesc (x : String × Nat) (l : List (String × Nat)) (c : Nat) :
    (insCountDesc x l).filter (fun p => p.2 == c) =
      if x.2 == c then x :: l.filter (fun p => p.2 == c)
      else l.filter (fun p => p.2 == c) := by
  induction l with
  | nil => cases hx : x.2 == c <;> simp [insCountDesc, List.filter_cons, hx]
  | cons y ys ih =>
    by_cases hle : y.2 ≤ x.2
    · simp [insCountDesc, hle, List.filter_cons]
    · simp only [insCountDesc, if_neg hle, List.filter_cons, ih]
      by_cases hx : (x.2 == c) = true
      · have hxc : x.2 = c := by simpa using hx
        have hyc : ¬ (y.2 == c) = true := by
          simp only [beq_iff_eq]
          omega
        simp [hx, hyc, List.filter_cons]
      · simp [hx, List.filter_cons]

theorem pairwise_sortCountDesc (l : List (String × Nat)) :
    (sortCountDesc l).Pairwise (fun a b => b.2 ≤ a.2) := by
  induction l with
  | nil => simp [sortCountDesc]
  | cons x xs ih => exact pairwise_insCountDesc x (sortCountDesc xs) ih

theorem perm_sortCountDesc (l : List (String × Nat)) :
    List.Perm (sortCountDesc l) l := by
  induction l with
  | nil => simp [sortCountDesc]
  | cons x xs ih =>
    exact (perm_insCountDesc x (sortCountDesc xs)).trans (List.Perm.cons x ih)

theorem filter_sortCountDesc (l : List (String × Nat)) (c : Nat) :
    (sortCountDesc l).filter (fun p => p.2 == c) = l.filter (fun p => p.2 == c) := by
  induction l with
  | nil => simp [sortCountDesc]
  | cons x xs ih =>
    simp only [sortCountDesc, filter_insCountDesc, ih, List.filter_cons]

/-! ### The document invariant under sequential operations -/

def DocInv (d : Doc) : Prop :=
  d.stats.total = sumVals d.stats.userCounts ∧ d.stats.total = d.feedback.length

theorem docInv_emptyDoc : DocInv emptyDoc := by
  constructor <;> simp [emptyDoc, sumVals]

theorem docInv_applyOp {d : Doc} (h : DocInv d) (op : Op) : DocInv (applyOp d op) := by
  cases op with
  | add e =>
    constructor
    · simp [applyOp, addCompute, sumVals_bump, h.1]
    · simp [applyOp, addCompute, h.2]
  | clear => exact docInv_emptyDoc

theorem docInv_foldl (ops : List Op) :
    ∀ d : Doc, DocInv d → DocInv (ops.foldl applyOp d) := by
  induction ops with
  | nil => intro d h; simpa using h
  | cons op rest ih =>
    intro d h
    exact ih (applyOp d op) (docInv_applyOp h op)

/-- C2: every document reachable from initialization by completed
`add_feedback` / `clear` operations satisfies
`total_messages = sum(user_message_counts.values()) = length(feedback)`. -/
theorem stats_invariant_reachable (ops : List Op) :
    (runOps ops).stats.total = sumVals (runOps ops).stats.userCounts ∧
    (runOps ops).stats.total = (runOps ops).feedback.length :=
  docInv_foldl ops emptyDoc docInv_emptyDoc

/-- C8: `get_stats` returns the pair of `total_messages` and the user-count
list sorted by count descending; the sort is a permutation of the mapping,
and entries of any fixed count keep the mapping's iteration order (stability,
stated as preservation of every equal-count filter). -/
theorem getStats_sorted_stable (d : Doc) :
    (getStats d).1 = d.stats.total ∧
    (getStats d).2.Pairwise (fun a b => b.2 ≤ a.2) ∧
    (getStats d).2.Perm d.stats.userCounts ∧
    ∀ c, (getStats d).2.filter (fun p => p.2 == c) =
      d.stats.userCounts.filter (fun p => p.2 == c) :=
  ⟨rfl, pairwise_sortCountDesc d.stats.userCounts,
    perm_sortCountDesc d.stats.userCounts,
    fun c => filter_sortCountDesc d.stats.userCounts c⟩

/-- C5: `export_csv` fails exactly when the feedback sequence is empty, and on
a non-empty sequence yields the header line followed by one serialized row per
entry in the original insertion order. -/
theorem exportCsv_header_rows (d : Doc) :
    ((∃ m, exportCsv d = Except.error m) ↔ d.feedback = []) ∧
    (∀ lines, exportCsv d = Except.ok lines →
      lines = csvHeader :: d.feedback.map csvRow ∧
      lines.head? = some csvHeader ∧
      lines.length = d.feedback.length + 1 ∧
      ∀ i, i < d.feedback.length →
        lines.get? (i + 1) = (d.feedback.get? i).map csvRow) := by
  constructor
  · constructor
    · rintro ⟨m, hm⟩
      cases hfb : d.feedback with
      | nil => rfl
      | cons a t => simp [exportCsv, hfb] at hm
    · intro hfb
      exact ⟨"No feedback to export.", by simp [exportCsv, hfb]⟩
  · intro lines hl
    cases hfb : d.feedback with
    | nil => simp [exportCsv, hfb] at hl
    | cons a t =>
      simp only [exportCsv, hfb] at hl
      obtain rfl : lines = csvHeader :: (a :: t).map csvRow := by
        simpa using hl.symm
      refine ⟨rfl, rfl, by simp, ?_⟩
      intro i hi
      simp [← List.getElem?_map]

/-- C5 witness at a one-entry document. -/
def cEntry1 : FeedbackEntry :=
  { user_id := 1, username := some "alice", full_name := some "Alice A"
  , text := "hello", timestamp := "2024-01-01T00:00:00+00:00" }

def cEntry2 : FeedbackEntry :=
  { user_id := 2, username := none, full_name := none
  , text := "world", timestamp := "2024-01-01T00:00:01+00:00" }

def docOne : Doc := addCompute emptyDoc cEntry1

theorem exportCsv_header_rows_witness :
    ([csvHeader, csvRow cEntry1].head? = some csvHeader) ∧
    ([csvHeader, csvRow cEntry1].length = docOne.feedback.length + 1) ∧
    ([csvHeader, csvRow cEntry1].get? 1 = (docOne.feedback.get? 0).map csvRow) := by
  have h := (exportCsv_header_rows docOne).2 [csvHeader, csvRow cEntry1] (by rfl)
  exact ⟨h.2.1, h.2.2.1, h.2.2.2 0 (by decide)⟩

/-! ### Substring containment: the boolean check agrees with the predicate -/

theorem startsWithChars_iff (n h : List Char) :
    startsWithChars n h = true ↔ ∃ s, h = n ++ s := by
  induction n generalizing h with
  | nil => simp [startsWithChars]
  | cons a as ih =>
    cases h with
    | nil =>
      simp [startsWithChars]
    | cons b bs =>
      simp only [startsWithChars, Bool.and_eq_true, beq_iff_eq, ih, List.cons_append,
        List.cons.injEq]
      constructor
      · rintro ⟨rfl, s, rfl⟩
        exact ⟨s, rfl, rfl⟩
      · rintro ⟨s, rfl, rfl⟩
        exact ⟨rfl, s, rfl⟩

theorem hasSeg_iff (n h : List Char) : hasSeg n h = true ↔ SegIn n h := by
  induction h with
  | nil =>
    simp only [hasSeg, startsWithChars_iff, SegIn]
    constructor
    · rintro ⟨s, hs⟩
      exact ⟨[], s, by simpa using hs⟩
    · rintro ⟨p, s, hs⟩
      obtain ⟨rfl, rfl, rfl⟩ : p = [] ∧ n = [] ∧ s = [] := by simpa using hs.symm
      exact ⟨[], by simp⟩
  | cons c t ih =>
    simp only [hasSeg, Bool.or_eq_true, startsWithChars_iff, ih, SegIn]
    constructor
    · rintro (⟨s, hs⟩ | ⟨p, s, hs⟩)
      · exact ⟨[], s, by simpa using hs⟩
      · exact ⟨c :: p, s, by simp [hs]⟩
    · rintro ⟨p, s, hs⟩
      cases p with
      | nil => exact Or.inl ⟨s, by simpa using hs⟩
      | cons d ds =>
        simp only [List.cons_append, List.cons.injEq] at hs
        exact Or.inr ⟨ds, s, hs.2⟩

/-! ### Employee directory (`Employee`, `_read_csv`, `reload`, queries) -/

/-- Mirror of the `Employee` dataclass (`src/bot.py` lines 61-76). -/
structure Employee where
  name : String
  department : String
  role : String
  email : String
deriving DecidableEq

/-- A parsed tabular source: the header row and the data rows, each row being
the `DictReader` mapping from column name to raw cell value. -/
structure CsvFile where
  header : List String
  rows : List (List (String × String))
deriving DecidableEq

/-- Model of `(row.get(k) or "").strip()`. -/
def cellGet (r : List (String × String)) (k : String) : String :=
  pyStrip ((r.lookup k).getD "")

/-- The required columns, pre-sorted as `sorted(required - ...)` emits them. -/
def requiredCols : List String := ["department", "email", "name", "role"]

def missingCols (header : List String) : List String :=
  requiredCols.filter (fun c => !header.contains c)

/-- The per-row body of `_read_csv`: skip a row whose stripped `name` or
`email` is empty, otherwise build the employee record. -/
def parseRow (r : List (String × String)) : Option Employee :=
  if cellGet r "name" = "" ∨ cellGet r "email" = "" then none
  else some
    { name := cellGet r "name", department := cellGet r "department"
    , role := cellGet r "role", email := cellGet r "email" }

/-- Boolean version of the row-keeping condition, for counting. -/
def goodRow (r : List (String × String)) : Bool :=
  !(cellGet r "name" == "" || cellGet r "email" == "")

/-- Mirror of `EmployeeDirectory._read_csv` (`src/bot.py` lines 196-216):
a `ValueError` on missing required columns, otherwise the kept rows. -/
def readCsv (f : CsvFile) : Except String (List Employee) :=
  match missingCols f.header with
  | [] => Except.ok (f.rows.filterMap parseRow)
  | ms => Except.error
      ("Employee CSV missing required columns: " ++ String.intercalate ", " ms)

/-- Mirror of `EmployeeDirectory.reload` (`src/bot.py` lines 182-194): a
missing source (`none`) resets to empty and returns normally; a schema error
propagates and leaves the sequence as it was; otherwise load-then-swap. -/
def reload (src : Option CsvFile) (cur : List Employee) :
    List Employee × Option String :=
  match src with
  | none => ([], none)
  | some f =>
    match readCsv f with
    | Except.ok es => (es, none)
    | Except.error m => (cur, some m)

/-- Mirror of `EmployeeDirectory.ensure_loaded` (`src/bot.py` lines 179-180):
it calls `reload` unconditionally. -/
def ensureLoaded (src : Option CsvFile) (cur : List Employee) :
    List Employee × Option String :=
  reload src cur

/-- The grouping key of `summarize`: `entry.department or "Не указан"`. -/
def deptKey (e : Employee) : String :=
  if e.department = "" then "Не указан" else e.department

def deptCounts (es : List Employee) : List (String × Nat) :=
  es.foldl (fun acc e => bump acc (deptKey e)) []

/-- Stable ascending insertion by key, modelling
`sorted(per_department.items(), key=lambda item: item[0])`. -/
def insKeyAsc (x : String × Nat) : List (String × Nat) → List (String × Nat)
  | [] => [x]
  | y :: ys => if strLeB x.1 y.1 then x :: y :: ys else y :: insKeyAsc x ys

def sortKeyAsc : List (String × Nat) → List (String × Nat)
  | [] => []
  | x :: xs => insKeyAsc x (sortKeyAsc xs)

/-- Mirror of `EmployeeDirectory.summarize` (`src/bot.py` lines 218-226),
over the employee sequence held after `ensure_loaded`. -/
def summarize (es : List Employee) : Nat × List (String × Nat) :=
  (es.length, sortKeyAsc (deptCounts es))

/-- Case-insensitive substring check, modelling
`query.lower() in field.lower()`. -/
def ciContains (q s : String) : Bool := hasSeg (pyLower q).data (pyLower s).data

/-- The match condition of `EmployeeDirectory.search`. -/
def empMatch (q : String) (e : Employee) : Bool :=
  ciContains q e.name || ciContains q e.role

/-- Mirror of `EmployeeDirectory.search` (`src/bot.py` lines 228-236). -/
def search (es : List Employee) (q : String) (lim : Nat) : List Employee :=
  (es.filter (empMatch q)).take lim

/-- Specification-level case-insensitive substring containment. -/
def CiSubstr (q s : String) : Prop := SegIn (pyLower q).data (pyLower s).data

/-- Specification-level search match: the query occurs case-insensitively in
the employee's name or role. -/
def EmpMatches (q : String) (e : Employee) : Prop :=
  CiSubstr q e.name ∨ CiSubstr q e.role

theorem empMatch_iff (q : String) (e : Employee) :
    empMatch q e = true ↔ EmpMatches q e := by
  simp [empMatch, EmpMatches, ciContains, CiSubstr, hasSeg_iff]

instance empMatchesDec (q : String) (e : Employee) : Decidable (EmpMatches q e) :=
  decidable_of_iff (empMatch q e = true) (empMatch_iff q e)

theorem decide_empMatches (q : String) (e : Employee) :
    decide (EmpMatches q e) = empMatch q e := by
  cases hb : empMatch q e with
  | true => exact decide_eq_true ((empMatch_iff q e).mp hb)
  | false =>
    refine decide_eq_false ?_
    intro h
    exact absurd ((empMatch_iff q e).mpr h) (by simp [hb])

/-- C9: `search` returns exactly the employees whose name or role contains the
query case-insensitively, truncated to at most `lim` elements, as a sublist of
the directory in original load order. -/
theorem search_filters_truncates (es : List Employee) (q : String) (lim : Nat) :
    search es q lim = (es.filter fun e => decide (EmpMatches q e)).take lim ∧
    (search es q lim).Sublist es ∧
    (search es q lim).length ≤ lim ∧
    ∀ e, e ∈ search es q lim → EmpMatches q e := by
  have hfe : es.filter (empMatch q) = es.filter fun e => decide (EmpMatches q e) :=
    List.filter_congr (fun a _ => (decide_empMatches q a).symm)
  refine ⟨by simp only [search, hfe], ?_, ?_, ?_⟩
  · exact ((es.filter (empMatch q)).take_sublist lim).trans es.filter_sublist
  · exact List.length_take_le lim _
  · intro e he
    have h1 : e ∈ es.filter (empMatch q) := List.mem_of_mem_take he
    exact (empMatch_iff q e).mp (List.of_mem_filter h1)

def empIvan : Employee :=
  { name := "Ivan Petrov", department := "IT", role := "Developer"
  , email := "ivan@example.com" }

def empOlga : Employee :=
  { name := "Olga", department := "HR", role := "Rival Lead"
  , email := "olga@example.com" }

def empBob : Employee :=
  { name := "Bob", department := "HR", role := "Manager"
  , email := "bob@example.com" }

def esDir : List Employee := [empIvan, empOlga, empBob]

/-- C9 witness at a concrete directory and a capitalized query. -/
theorem search_filters_truncates_witness :
    search esDir "Iva" 10 =
      (esDir.filter fun e => decide (EmpMatches "Iva" e)).take 10 ∧
    (search esDir "Iva" 10).Sublist esDir ∧
    (search esDir "Iva" 10).length ≤ 10 :=
  ⟨(search_filters_truncates esDir "Iva" 10).1,
   (search_filters_truncates esDir "Iva" 10).2.1,
   (search_filters_truncates esDir "Iva" 10).2.2.1⟩

/-! ### Summarize: the total equals the sum of the per-department counts -/

theorem sumVals_insKeyAsc (x : String × Nat) (l : List (String × Nat)) :
    sumVals (insKeyAsc x l) = x.2 + sumVals l := by
  induction l with
  | nil => simp [insKeyAsc, sumVals]
  | cons y ys ih =>
    by_cases h : strLeB x.1 y.1 = true
    · simp [insKeyAsc, h, sumVals]
    · simp only [insKeyAsc, if_neg h, sumVals, List.map_cons, List.sum_cons] at *
      omega

theorem sumVals_sortKeyAsc (l : List (String × Nat)) :
    sumVals (sortKeyAsc l) = sumVals l := by
  induction l with
  | nil => rfl
  | cons x xs ih =>
    show sumVals (insKeyAsc x (sortKeyAsc xs)) = sumVals (x :: xs)
    rw [sumVals_insKeyAsc, ih]
    simp [sumVals]

theorem sumVals_foldl_bump (es : List Employee) :
    ∀ acc : List (String × Nat),
      sumVals (es.foldl (fun acc e => bump acc (deptKey e)) acc) =
        sumVals acc + es.length := by
  induction es with
  | nil => intro acc; simp
  | cons e t ih =>
    intro acc
    rw [List.foldl_cons, ih (bump acc (deptKey e)), sumVals_bump]
    simp only [List.length_cons]
    omega

/-- C10: `summarize` returns a total equal to the sum of the per-department
counts: every employee is counted in exactly one department group. -/
theorem summarize_total_eq_sum (es : List Employee) :
    (summarize es).1 = sumVals (summarize es).2 := by
  have h := sumVals_foldl_bump es []
  have h0 : sumVals ([] : List (String × Nat)) = 0 := rfl
  rw [h0, Nat.zero_add] at h
  calc (summarize es).1 = es.length := rfl
    _ = sumVals (deptCounts es) := h.symm
    _ = sumVals (sortKeyAsc (deptCounts es)) := (sumVals_sortKeyAsc _).symm
    _ = sumVals (summarize es).2 := rfl

/-! ### Reload: load-then-swap, schema failure, per-row skipping -/

theorem length_keptRows (rows : List (List (String × String))) :
    (rows.filterMap parseRow).length = (rows.filter goodRow).length := by
  induction rows with
  | nil => rfl
  | cons r t ih =>
    by_cases h : cellGet r "name" = "" ∨ cellGet r "email" = ""
    · have h1 : parseRow r = none := by simp [parseRow, h]
      have h2 : goodRow r = false := by
        rcases h with h | h <;> simp [goodRow, h]
      simp [List.filterMap_cons, List.filter_cons, h1, h2, ih]
    · push_neg at h
      have h1 : parseRow r = some
          { name := cellGet r "name", department := cellGet r "department"
          , role := cellGet r "role", email := cellGet r "email" } := by
        simp [parseRow, h.1, h.2]
      have h2 : goodRow r = true := by
        simp only [goodRow, Bool.not_eq_true', Bool.or_eq_false_iff,
          beq_eq_false_iff_ne, ne_eq]
        exact ⟨h.1, h.2⟩
      simp [List.filterMap_cons, List.filter_cons, h1, h2, ih]

theorem mem_keptRows {rows : List (List (String × String))} {e : Employee}
    (he : e ∈ rows.filterMap parseRow) : e.name ≠ "" ∧ e.email ≠ "" := by
  obtain ⟨r, _, hpr⟩ := List.mem_filterMap.mp he
  by_cases h : cellGet r "name" = "" ∨ cellGet r "email" = ""
  · simp [parseRow, h] at hpr
  · push_neg at h
    simp only [parseRow, if_neg (by tauto : ¬ (cellGet r "name" = "" ∨
      cellGet r "email" = "")), Option.some.injEq] at hpr
    subst hpr
    exact ⟨h.1, h.2⟩

/-- C4: a missing source empties the directory and returns normally; a header
lacking a required column fails and leaves the sequence exactly as it was; an
intact header loads successfully, each row with a blank stripped name or email
being skipped individually. -/
theorem reload_swap_and_skip :
    (∀ cur, reload none cur = ([], none)) ∧
    (∀ f cur, missingCols f.header ≠ [] →
      (reload (some f) cur).1 = cur ∧ (reload (some f) cur).2.isSome = true) ∧
    (∀ f cur, missingCols f.header = [] →
      (reload (some f) cur).2 = none ∧
      (reload (some f) cur).1 = f.rows.filterMap parseRow ∧
      (reload (some f) cur).1.length = (f.rows.filter goodRow).length ∧
      ∀ e, e ∈ (reload (some f) cur).1 → e.name ≠ "" ∧ e.email ≠ "") := by
  refine ⟨fun cur => rfl, ?_, ?_⟩
  · intro f cur hm
    cases hms : missingCols f.header with
    | nil => exact absurd hms hm
    | cons m ms =>
      have hr : reload (some f) cur =
          (cur, some ("Employee CSV missing required columns: " ++
            String.intercalate ", " (m :: ms))) := by
        simp [reload, readCsv, hms]
      rw [hr]
      exact ⟨rfl, rfl⟩
  · intro f cur hm
    have hr : reload (some f) cur = (f.rows.filterMap parseRow, none) := by
      simp [reload, readCsv, hm]
    rw [hr]
    exact ⟨rfl, rfl, length_keptRows f.rows, fun e he => mem_keptRows he⟩

def csvBob : CsvFile :=
  { header := ["name", "department", "role", "email"]
  , rows :=
    [ [("name", "Bob"), ("department", "HR"), ("role", "Manager"),
       ("email", "bob@example.com")]
    , [("name", "NoMail"), ("department", "HR"), ("role", "Intern"),
       ("email", "  ")] ] }

def csvNoEmailCol : CsvFile :=
  { header := ["name", "department", "role"]
  , rows := [[("name", "Bob"), ("department", "HR"), ("role", "Manager")]] }

def empAlice : Employee :=
  { name := "Alice", department := "IT", role := "Dev"
  , email := "alice@example.com" }

/-- C4 witness: a missing file, a header missing `email`, and a good file with
one valid row and one row whose email is whitespace-only (skipped). -/
theorem reload_swap_and_skip_witness :
    reload none [empAlice] = ([], none) ∧
    (reload (some csvNoEmailCol) [empAlice]).1 = [empAlice] ∧
    (reload (some csvNoEmailCol) [empAlice]).2.isSome = true ∧
    (reload (some csvBob) [empAlice]).2 = none ∧
    (reload (some csvBob) [empAlice]).1 = [empBob] ∧
    (reload (some csvBob) [empAlice]).1.length =
      (csvBob.rows.filter goodRow).length := by
  refine ⟨reload_swap_and_skip.1 [empAlice],
    (reload_swap_and_skip.2.1 csvNoEmailCol [empAlice] (by decide)).1,
    (reload_swap_and_skip.2.1 csvNoEmailCol [empAlice] (by decide)).2,
    (reload_swap_and_skip.2.2 csvBob [empAlice] (by decide)).1,
    by decide,
    (reload_swap_and_skip.2.2 csvBob [empAlice] (by decide)).2.2.1⟩

/-! ### EnsureLoaded: the code reloads unconditionally -/

/-- C3 counterexample: the directory is already loaded (it holds `empAlice`
from a prior successful load), yet a further `ensure_loaded` re-reads the
current source and replaces the in-memory sequence — so `ensure_loaded`
triggers `reload` even when the directory has been loaded before, and a query
after a prior load does not serve the stale in-memory sequence. -/
theorem ensureLoaded_not_lazy :
    ensureLoaded (some csvBob) [empAlice] = ([empBob], none) ∧
    ([empBob] : List Employee) ≠ [empAlice] := by
  constructor
  · decide
  · decide

/-- C3 amended: `ensure_loaded` triggers `reload` unconditionally on every
call, whether or not the directory was already loaded; a query therefore
always re-reads the source, and on a successful read the result is the fresh
source content, independent of the previous in-memory sequence. -/
theorem ensureLoaded_always_reloads :
    (∀ f cur es, readCsv f = Except.ok es → ensureLoaded (some f) cur = (es, none)) ∧
    (∀ cur, ensureLoaded none cur = ([], none)) := by
  constructor
  · intro f cur es h
    simp [ensureLoaded, reload, h]
  · intro cur
    rfl

/-- C3 amended-claim witness at a concrete source and stale sequence. -/
theorem ensureLoaded_always_reloads_witness :
    ensureLoaded (some csvBob) [empAlice] = ([empBob], none) ∧
    ensureLoaded none [empAlice] = ([], none) :=
  ⟨ensureLoaded_always_reloads.1 csvBob [empAlice] [empBob] (by rfl),
   ensureLoaded_always_reloads.2 [empAlice]⟩

/-! ### Conversation handlers and the admin gate -/

/-- The sender identity attached to an inbound message (`message.from_user`). -/
structure UserInfo where
  id : Int
  username : Option String
  full_name : Option String
deriving DecidableEq

/-- The per-user conversation state: `ConversationHandler.END` is `idle`,
the `AWAITING_FEEDBACK_TEXT` constant is `awaiting`. -/
inductive ConvState where
  | idle
  | awaiting
deriving DecidableEq

/-- The entry built by `save_feedback_and_notify` (`src/bot.py` lines
372-387), with the `user is None` fallbacks. -/
def mkEntry (u : Option UserInfo) (text ts : String) : FeedbackEntry :=
  { user_id := match u with | some user => user.id | none => 0
  , username := match u with | some user => user.username | none => none
  , full_name := match u with | some user => user.full_name | none => none
  , text := text, timestamp := ts }

/-- A handler's observable outcome: the stored document, the next
conversation state and the outbound reply text. -/
structure HandlerResult where
  doc : Doc
  state : ConvState
  reply : String
deriving DecidableEq

/-- Mirror of `handle_feedback_command` (`src/bot.py` lines 326-346): with
non-blank inline arguments the feedback is saved at once and the conversation
ends; otherwise the user is prompted and the state becomes awaiting. -/
def handleFeedbackCommand (args : List String) (u : Option UserInfo)
    (ts : String) (d : Doc) : HandlerResult :=
  if args ≠ [] ∧ pyStrip (joinArgs args) ≠ "" then
    { doc := addCompute d (mkEntry u (pyStrip (joinArgs args)) ts)
    , state := ConvState.idle, reply := "Спасибо за обратную связь!" }
  else
    { doc := d, state := ConvState.awaiting
    , reply := "Пожалуйста, отправьте текст вашей обратной связи." }

/-- Mirror of `handle_feedback_response` (`src/bot.py` lines 349-369): a
missing or falsy text re-prompts, a whitespace-only text re-prompts, and a
non-blank text is saved, ending the conversation. -/
def handleFeedbackResponse (text : Option String) (u : Option UserInfo)
    (ts : String) (d : Doc) : HandlerResult :=
  match text with
  | none =>
    { doc := d, state := ConvState.awaiting
    , reply := "Не удалось получить текст. Попробуйте ещё раз." }
  | some s =>
    if s = "" then
      { doc := d, state := ConvState.awaiting
      , reply := "Не удалось получить текст. Попробуйте ещё раз." }
    else if pyStrip s = "" then
      { doc := d, state := ConvState.awaiting
      , reply := "Текст не может быть пустым. Попробуйте ещё раз." }
    else
      { doc := addCompute d (mkEntry u (pyStrip s) ts)
      , state := ConvState.idle, reply := "Спасибо! Ваше сообщение сохранено." }

theorem pyStrip_empty : pyStrip "" = "" := rfl

/-- C6: in the awaiting state a non-blank text is recorded and the state
returns to idle, a blank or whitespace-only text re-prompts, records nothing
and stays awaiting; `/feedback` with non-blank inline text records at once
and ends idle, and `/feedback` with no arguments moves to awaiting. -/
theorem feedback_conversation_transitions (u : Option UserInfo) (ts : String)
    (d : Doc) :
    (∀ s, pyStrip s ≠ "" → handleFeedbackResponse (some s) u ts d =
      { doc := addCompute d (mkEntry u (pyStrip s) ts)
      , state := ConvState.idle, reply := "Спасибо! Ваше сообщение сохранено." }) ∧
    (∀ s, pyStrip s = "" → (handleFeedbackResponse (some s) u ts d).doc = d ∧
      (handleFeedbackResponse (some s) u ts d).state = ConvState.awaiting ∧
      ((handleFeedbackResponse (some s) u ts d).reply =
          "Не удалось получить текст. Попробуйте ещё раз." ∨
        (handleFeedbackResponse (some s) u ts d).reply =
          "Текст не может быть пустым. Попробуйте ещё раз.")) ∧
    (∀ args, args ≠ [] → pyStrip (joinArgs args) ≠ "" →
      handleFeedbackCommand args u ts d =
      { doc := addCompute d (mkEntry u (pyStrip (joinArgs args)) ts)
      , state := ConvState.idle, reply := "Спасибо за обратную связь!" }) ∧
    handleFeedbackCommand [] u ts d =
      { doc := d, state := ConvState.awaiting
      , reply := "Пожалуйста, отправьте текст вашей обратной связи." } := by
  refine ⟨?_, ?_, ?_, ?_⟩
  · intro s hs
    have hne : s ≠ "" := by
      intro h
      rw [h, pyStrip_empty] at hs
      exact hs rfl
    simp [handleFeedbackResponse, hne, hs]
  · intro s hs
    by_cases hne : s = ""
    · subst hne
      exact ⟨rfl, rfl, Or.inl rfl⟩
    · refine ⟨?_, ?_, Or.inr ?_⟩ <;> simp [handleFeedbackResponse, hne, hs]
  · intro args hargs hs
    simp [handleFeedbackCommand, hargs, hs]
  · rfl

def userW : Option UserInfo :=
  some { id := 42, username := some "alice", full_name := some "Alice A" }

def tsW : String := "2024-01-01T00:00:00+00:00"

/-- C6 witness: the conversation cycle at concrete inputs. -/
theorem feedback_conversation_transitions_witness :
    handleFeedbackResponse (some "hello") userW tsW emptyDoc =
      { doc := addCompute emptyDoc (mkEntry userW (pyStrip "hello") tsW)
      , state := ConvState.idle
      , reply := "Спасибо! Ваше сообщение сохранено." } ∧
    (handleFeedbackResponse (some "   ") userW tsW emptyDoc).doc = emptyDoc ∧
    (handleFeedbackResponse (some "   ") userW tsW emptyDoc).state =
      ConvState.awaiting ∧
    handleFeedbackCommand ["hello2"] userW tsW emptyDoc =
      { doc := addCompute emptyDoc (mkEntry userW (pyStrip (joinArgs ["hello2"])) tsW)
      , state := ConvState.idle, reply := "Спасибо за обратную связь!" } ∧
    handleFeedbackCommand [] userW tsW emptyDoc =
      { doc := emptyDoc, state := ConvState.awaiting
      , reply := "Пожалуйста, отправьте текст вашей обратной связи." } :=
  ⟨(feedback_conversation_transitions userW tsW emptyDoc).1 "hello" (by decide),
   ((feedback_conversation_transitions userW tsW emptyDoc).2.1 "   " (by decide)).1,
   ((feedback_conversation_transitions userW tsW emptyDoc).2.1 "   " (by decide)).2.1,
   (feedback_conversation_transitions userW tsW emptyDoc).2.2.1 ["hello2"]
     (by decide) (by decide),
   (feedback_conversation_transitions userW tsW emptyDoc).2.2.2⟩

/-- Mirror of `is_admin` (`src/bot.py` lines 288-289). -/
def isAdmin (userId adminChatId : Int) : Bool := userId == adminChatId

def deniedMsg : String := "Команда доступна только администратору."

/-- The observable outcome of `/export`. -/
inductive ExportOutcome where
  | denied
  | document (lines : List String)
  | failure (msg : String)
deriving DecidableEq

/-- Mirror of `export_command` (`src/bot.py` lines 415-440): the admin gate,
then the CSV export with its `ValueError` branch. The document is returned
unchanged as the store is only read. -/
def exportCommand (u : Option UserInfo) (admin : Int) (d : Doc) :
    Doc × ExportOutcome :=
  match u with
  | none => (d, ExportOutcome.denied)
  | some user =>
    if isAdmin user.id admin then
      match exportCsv d with
      | Except.ok lines => (d, ExportOutcome.document lines)
      | Except.error m => (d, ExportOutcome.failure m)
    else (d, ExportOutcome.denied)

/-- Mirror of `clear_command` (`src/bot.py` lines 443-459): the admin gate,
then an atomic reset to the empty document. -/
def clearCommand (u : Option UserInfo) (admin : Int) (d : Doc) : Doc × String :=
  match u with
  | none => (d, deniedMsg)
  | some user =>
    if isAdmin user.id admin then (emptyDoc, "База очищена.")
    else (d, deniedMsg)

/-- C7: a caller whose identity differs from the configured admin identity
gets the permission-denied message from `/export` and `/clear`, and the
feedback document — hence `get_stats` — is completely unchanged. -/
theorem admin_gate_frame (user : UserInfo) (admin : Int) (d : Doc)
    (h : user.id ≠ admin) :
    exportCommand (some user) admin d = (d, ExportOutcome.denied) ∧
    clearCommand (some user) admin d = (d, deniedMsg) ∧
    getStats (exportCommand (some user) admin d).1 = getStats d ∧
    getStats (clearCommand (some user) admin d).1 = getStats d := by
  have hb : isAdmin user.id admin = false := by
    simp [isAdmin, h]
  refine ⟨?_, ?_, ?_, ?_⟩ <;> simp [exportCommand, clearCommand, hb]

def nonAdminUser : UserInfo := { id := 1, username := none, full_name := none }

/-- C7 witness: a non-admin identity at a one-entry document. -/
theorem admin_gate_frame_witness :
    exportCommand (some nonAdminUser) 2 docOne = (docOne, ExportOutcome.denied) ∧
    clearCommand (some nonAdminUser) 2 docOne = (docOne, deniedMsg) ∧
    getStats (exportCommand (some nonAdminUser) 2 docOne).1 = getStats docOne ∧
    getStats (clearCommand (some nonAdminUser) 2 docOne).1 = getStats docOne :=
  admin_gate_frame nonAdminUser 2 docOne (by decide)

/-! ### Concurrency: the lock is released between `_read` and `_write` -/

/-- The progress of one in-flight `add_feedback` call. Each call performs two
atomic (lock-guarded) actions: `_read`, which snapshots the document, and
`_write`, which writes the document computed from that snapshot. The lock is
acquired separately by `_read` and `_write` (`src/bot.py` lines 103-130), so
between the two actions of one call the other call's actions may run. -/
inductive TaskSt where
  | ready
  | gotSnap (snap : Doc)
  | finished
deriving DecidableEq

/-- One atomic action of an `add_feedback` call for entry `e`. -/
def stepAdd (e : FeedbackEntry) : TaskSt → Doc → TaskSt × Doc
  | TaskSt.ready, d => (TaskSt.gotSnap d, d)
  | TaskSt.gotSnap snap, _ => (TaskSt.finished, addCompute snap e)
  | TaskSt.finished, d => (TaskSt.finished, d)

/-- Two concurrent `add_feedback` calls over one shared document. -/
structure SysState where
  doc : Doc
  t1 : TaskSt
  t2 : TaskSt
deriving DecidableEq

/-- Run one atomic action of the scheduled task (`false` = first call,
`true` = second call). -/
def schedStep (e1 e2 : FeedbackEntry) (s : SysState) : Bool → SysState
  | false =>
    let r := stepAdd e1 s.t1 s.doc
    { doc := r.2, t1 := r.1, t2 := s.t2 }
  | true =>
    let r := stepAdd e2 s.t2 s.doc
    { doc := r.2, t1 := s.t1, t2 := r.1 }

def runSched (e1 e2 : FeedbackEntry) : List Bool → SysState → SysState
  | [], s => s
  | b :: rest, s => runSched e1 e2 rest (schedStep e1 e2 s b)

def initSys : SysState := { doc := emptyDoc, t1 := TaskSt.ready, t2 := TaskSt.ready }

/-- C1: a lost update. Under the interleaving read-1, read-2, write-1,
write-2 — legal because `add_feedback` acquires the mutex separately for
`_read` and for `_write` instead of across the whole read-modify-write — two
concurrent `add_feedback` calls with distinct user ids (entries `cEntry1`,
`cEntry2`) both complete, yet `total_messages` is 1, not 2, and the
user-count values sum to 1; the same two calls serialized end with total 2.
This contradicts the claim that after N concurrent calls the total is N. -/
theorem add_feedback_lost_update :
    (runSched cEntry1 cEntry2 [false, true, false, true] initSys).t1 =
      TaskSt.finished ∧
    (runSched cEntry1 cEntry2 [false, true, false, true] initSys).t2 =
      TaskSt.finished ∧
    (runSched cEntry1 cEntry2 [false, true, false, true] initSys).doc.stats.total
      = 1 ∧
    sumVals (runSched cEntry1 cEntry2 [false, true, false, true]
      initSys).doc.stats.userCounts = 1 ∧
    (runSched cEntry1 cEntry2 [false, true, false, true] initSys).doc.stats.total
      ≠ 2 ∧
    (runSched cEntry1 cEntry2 [false, false, true, true] initSys).doc.stats.total
      = 2 := by
  refine ⟨rfl, rfl, rfl, rfl, by decide, rfl⟩

end Bot
